import Mathlib

/-!
Verification development for the DeMCP DeProof request-authentication protocol.

The development shallowly embeds the two JavaScript/TypeScript sources that
implement the protocol:

  * the server-side validator (`InMemoryNonceStore`, `validateDeProof`), and
  * the client-side generator (`getAndIncNonce`, `canonicalStringify`,
    `generateDeProof` in `secure-proof.js`).

JSON-like values are modelled by the inductive type `Js` (numbers are modelled
as integers; the protocol only ever serializes integral nonces and string
fields).  External library primitives from the `ethers` package and the JS
runtime (keccak256 hashing, personal-message signature recovery, `Date`
parsing, `Date.now`) are modelled as parameters collected in `JsEnv` and
`ClientEnv`: every theorem quantifies over them, so nothing proved here
depends on a particular hash or signature implementation.

JavaScript dynamic-typing behaviour that the validator relies on is embedded
explicitly:

  * a member read on an absent key yields `undefined`, modelled by `Option`;
  * `deProof.signerAddress.substring(0, 8)` on a missing or non-string field
    throws a `TypeError`, which the outer `try/catch` of `validateDeProof`
    converts into the generic `-32000` rejection (`VResult.genericError`);
  * `new Date(s).getTime()` never throws: an unparseable string yields `NaN`,
    and `NaN > 60` is `false`, so the timestamp-window test passes.  `NaN`
    is modelled by `Option.none` from `JsEnv.parseDate`;
  * `JSON.stringify` omits object keys whose value is `undefined`, which is
    why `signedPayload` drops the `timestamp` key when the field is absent.
-/

/-- JSON-like value tree, the parameter/payload universe of the protocol.
Numbers are modelled as integers (see the file comment). -/
inductive Js where
  | null
  | bool (b : Bool)
  | num (n : Int)
  | str (s : String)
  | arr (xs : List Js)
  | obj (fs : List (String × Js))

/-- JavaScript truthiness of a value: `null`, `false`, `0` and the empty
string are falsy, every array and object (even empty) is truthy. -/
def jsTruthy : Js → Bool
  | .null => false
  | .bool b => b
  | .num n => n != 0
  | .str s => s ≠ ""
  | .arr _ => true
  | .obj _ => true

/-- First-match lookup in an association list, the model of reading a key of
a JS object.  JS objects have distinct keys, so the first match is the match. -/
def lookupA {α : Type} : List (String × α) → String → Option α
  | [], _ => none
  | (k, v) :: t, k' => if k = k' then some v else lookupA t k'

/-- Insert or overwrite a key in an association list, the model of writing a
key of a JS object. -/
def insertA {α : Type} : List (String × α) → String → α → List (String × α)
  | [], k, v => [(k, v)]
  | (k', v') :: t, k, v => if k' = k then (k, v) :: t else (k', v') :: insertA t k v

/-- Remove a key from an association list: the model of
`delete actualParams._deProof` (order of the remaining keys is preserved). -/
def removeKey : List (String × Js) → String → List (String × Js)
  | [], _ => []
  | (k', v) :: t, k => if k' = k then removeKey t k else (k', v) :: removeKey t k

/-- Property read `value.field` on a JS value: a lookup on objects and
`undefined` (`none`) on every other value. -/
def jsGetField : Js → String → Option Js
  | .obj fs, k => lookupA fs k
  | _, _ => none

/-- Read a proof field that the validator uses as a string
(`substring`/`startsWith` force a `TypeError` on any non-string). -/
def proofStr (dp : Js) (field : String) : Option String :=
  match jsGetField dp field with
  | some (.str s) => some s
  | _ => none

/-- Read a proof field that the validator compares against a number with the
strict `!==`: any non-number value compares unequal to every number. -/
def proofNum (dp : Js) (field : String) : Option Int :=
  match jsGetField dp field with
  | some (.num n) => some n
  | _ => none

/-- Key-ordering relation used to model `Object.keys(obj).sort()`: compare
association-list entries by their key string. -/
def keyLe (p q : String × Js) : Prop := p.1 ≤ q.1

/-- Strict version of `keyLe`, used to show sorted key-distinct lists are
determined by their multiset of entries. -/
def keyLt (p q : String × Js) : Prop := p.1 < q.1

instance : DecidableRel keyLe := fun p q => inferInstanceAs (Decidable (p.1 ≤ q.1))

instance : IsTotal (String × Js) keyLe := ⟨fun a b => le_total a.1 b.1⟩

instance : IsTrans (String × Js) keyLe := ⟨fun _ _ _ h h' => le_trans h h'⟩

instance : IsAntisymm (String × Js) keyLt :=
  ⟨fun _ _ h h' => absurd (lt_trans h h') (lt_irrefl _)⟩

mutual

/-- Model of `sortObjectKeys` (defined verbatim in both
`src/client/build/secure-proof.js` and inside `validateDeProof` in the
validator): recursively sort object member keys lexicographically, preserve
array element order, pass scalars through.  The source sorts
`Object.keys(obj)` and rebuilds the object by key lookup; since the keys of a
JS object are distinct, this equals sorting the (key, value) entries by key,
which is how it is embedded. -/
def sortObjectKeys : Js → Js
  | .null => .null
  | .bool b => .bool b
  | .num n => .num n
  | .str s => .str s
  | .arr xs => .arr (sortList xs)
  | .obj fs => .obj (List.insertionSort keyLe (sortFields fs))

/-- Recursive traversal of `sortObjectKeys` over array elements
(`obj.map(sortObjectKeys)` in the source). -/
def sortList : List Js → List Js
  | [] => []
  | x :: xs => sortObjectKeys x :: sortList xs

/-- Recursive traversal of `sortObjectKeys` over the values of an object
(`acc[key] = sortObjectKeys(obj[key])` in the source). -/
def sortFields : List (String × Js) → List (String × Js)
  | [] => []
  | (k, v) :: fs => (k, sortObjectKeys v) :: sortFields fs

end

/-- Hex digit for the `\u00XX` escapes of `JSON.stringify` (lowercase). -/
def toHexDigitChar (n : Nat) : Char :=
  if n < 10 then Char.ofNat (48 + n) else Char.ofNat (87 + n)

/-- The escaping `JSON.stringify` applies inside string literals: quote,
backslash, the named control escapes, `\u00XX` for other control characters,
and every other character verbatim. -/
def jsonEscapeChar (c : Char) : String :=
  if c = '"' then "\\\""
  else if c = '\\' then "\\\\"
  else if c = '\x08' then "\\b"
  else if c = '\x09' then "\\t"
  else if c = '\x0a' then "\\n"
  else if c = '\x0c' then "\\f"
  else if c = '\x0d' then "\\r"
  else if c.toNat < 32 then
    "\\u00" ++ String.mk [toHexDigitChar (c.toNat / 16), toHexDigitChar (c.toNat % 16)]
  else String.singleton c

/-- A JSON string literal: quoted and escaped. -/
def jsonQuote (s : String) : String :=
  "\"" ++ String.join (s.data.map jsonEscapeChar) ++ "\""

mutual

/-- Model of `JSON.stringify` on `Js` values.  Integers print without a
decimal point or exponent, exactly as JS prints integral doubles. -/
def jsonStringify : Js → String
  | .null => "null"
  | .bool true => "true"
  | .bool false => "false"
  | .num n => toString n
  | .str s => jsonQuote s
  | .arr xs => "[" ++ jsonStringifyList xs ++ "]"
  | .obj fs => "\x7b" ++ jsonStringifyFields fs ++ "\x7d"

/-- Comma-separated serialization of array elements. -/
def jsonStringifyList : List Js → String
  | [] => ""
  | [x] => jsonStringify x
  | x :: y :: rest => jsonStringify x ++ "," ++ jsonStringifyList (y :: rest)

/-- Comma-separated serialization of object members. -/
def jsonStringifyFields : List (String × Js) → String
  | [] => ""
  | [(k, v)] => jsonQuote k ++ ":" ++ jsonStringify v
  | (k, v) :: q :: rest => jsonQuote k ++ ":" ++ jsonStringify v ++ "," ++ jsonStringifyFields (q :: rest)

end

/-- `canonicalStringify(value)`: `JSON.stringify(sortObjectKeys(value))`.
The function is defined verbatim in both source files (generator and
validator); it is embedded once and used by both embeddings. -/
def canonicalStringify (value : Js) : String :=
  jsonStringify (sortObjectKeys value)

/-- The test `s.startsWith("0x")`, computed on the character list so that it
evaluates by kernel reduction. -/
def startsWith0x (s : String) : Bool :=
  match s.data with
  | '0' :: 'x' :: _ => true
  | _ => false

/-- Strip a leading `0x`, the normalization both sides apply to hex digests
and signatures (`s.startsWith("0x") ? s.slice(2) : s`). -/
def strip0x (s : String) : String :=
  match s.data with
  | '0' :: 'x' :: rest => String.mk rest
  | _ => s

/-- ASCII lowercasing of a character, the behaviour of JS `toLowerCase` on
the hex address strings the protocol compares. -/
def jsCharToLower (c : Char) : Char :=
  if 'A' ≤ c ∧ c ≤ 'Z' then Char.ofNat (c.toNat + 32) else c

/-- `s.toLowerCase()` on ASCII strings, computed on the character list. -/
def jsToLower (s : String) : String :=
  String.mk (s.data.map jsCharToLower)

/-- Value of a hex digit character, or `none` for a non-hex character. -/
def hexVal (c : Char) : Option Nat :=
  if '0' ≤ c ∧ c ≤ '9' then some (c.toNat - 48)
  else if 'a' ≤ c ∧ c ≤ 'f' then some (c.toNat - 87)
  else if 'A' ≤ c ∧ c ≤ 'F' then some (c.toNat - 55)
  else none

/-- Pairwise hex decoding as performed by `Buffer.from(str, "hex")`: decode
two hex digits at a time and stop at the first invalid pair (a dangling odd
character is dropped). -/
def hexPairsToBytes : List Char → List Nat
  | c1 :: c2 :: rest =>
    match hexVal c1, hexVal c2 with
    | some hi, some lo => (16 * hi + lo) :: hexPairsToBytes rest
    | _, _ => []
  | _ => []

/-- `Buffer.from(s, "hex")` as a byte list. -/
def hexDecodeJs (s : String) : List Nat :=
  hexPairsToBytes s.data

/-- The nested map held by `InMemoryNonceStore.store`:
signerAddress to session to next expected nonce. -/
abbrev NonceStore := List (String × List (String × Int))

/-- A freshly constructed `InMemoryNonceStore` (`store = {}`). -/
def emptyNonceStore : NonceStore := []

/-- `InMemoryNonceStore.getExpectedNonce`: the stored value when both levels
are present, else the default 0 for unseen (signer, session) pairs. -/
def getExpectedNonce (store : NonceStore) (signerAddress session : String) : Int :=
  match lookupA store signerAddress with
  | some m =>
    match lookupA m session with
    | some v => v
    | none => 0
  | none => 0

/-- `InMemoryNonceStore.incrementAndSetNonce`: create the signer level if
missing, then set the next expected nonce to `validatedNonce + 1`. -/
def incrementAndSetNonce (store : NonceStore) (signerAddress session : String)
    (validatedNonce : Int) : NonceStore :=
  insertA store signerAddress
    (insertA ((lookupA store signerAddress).getD []) session (validatedNonce + 1))

/-- The client-side module-level `nonceStore` of `secure-proof.js`. -/
abbrev ClientNonceStore := List (String × List (String × Int))

/-- Current value of the client-side counter for a (signer, session) pair,
with both missing levels defaulting to 0. -/
def clientCounter (st : ClientNonceStore) (signerAddress session : String) : Int :=
  (lookupA ((lookupA st signerAddress).getD []) session).getD 0

/-- `getAndIncNonce` of `secure-proof.js`: initialize missing levels to 0,
return the current counter and store the incremented one. -/
def getAndIncNonce (st : ClientNonceStore) (signerAddress session : String) :
    Int × ClientNonceStore :=
  (clientCounter st signerAddress session,
   insertA st signerAddress
     (insertA ((lookupA st signerAddress).getD []) session
       (clientCounter st signerAddress session + 1)))

/-- External JS/ethers primitives the validator calls, as parameters:
`Date.now()`, `new Date(s).getTime()` (with `none` for `NaN`),
`ethers.utils.keccak256` over the UTF-8 bytes of a string (returned as
0x-prefixed hex), and `ethers.utils.verifyMessage` over message bytes and a
0x-prefixed signature (`none` models a thrown recovery error). -/
structure JsEnv where
  now : Int
  parseDate : String → Option Int
  keccak256 : String → String
  verifyMessage : List Nat → String → Option String

/-- Outcomes of `validateDeProof`, one constructor per returned error code
(`accepted` is the `null` return).  `timestampFormatInvalid` (-32002) and
`storeUnavailable` (-32000 from the nonce-store try/catch blocks) are listed
because the source declares them, although with the in-memory store and JS
`Date` semantics neither branch can run. -/
inductive VResult where
  | accepted
  | missingProof
  | timestampOutOfRange
  | timestampFormatInvalid
  | nonceInvalid
  | storeUnavailable
  | digestMismatch
  | signatureMismatch
  | signatureInvalid
  | genericError
deriving DecidableEq

/-- The timestamp-window test of stage 2:
`Math.abs(Date.now() - new Date(ts).getTime()) / 1000 > 60`.
An absent field or unparseable string yields `NaN`, every comparison with
which is `false`, so those cases pass the test; a numeric field is accepted
by `new Date` as epoch milliseconds.  Other value types coerce through
`Date` in ways no claim exercises and are modelled as `NaN` as well. -/
def timestampRejected (env : JsEnv) (tsField : Option Js) : Bool :=
  match tsField with
  | some (.str s) =>
    match env.parseDate s with
    | some t => decide (mkRat ((env.now - t).natAbs) 1000 > 60)
    | none => false
  | some (.num n) => decide (mkRat ((env.now - n).natAbs) 1000 > 60)
  | _ => false

/-- The exact rational `mkRat d 1000` used in `timestampRejected` is the
division `d / 1000` the source computes (written with `mkRat` so that the
comparison evaluates by kernel reduction). -/
theorem mkRat_thousand_eq_div (d : Nat) : (mkRat d 1000 : ℚ) = (d : ℚ) / 1000 := by
  rw [Rat.mkRat_eq_div]
  norm_num

/-- The object `{params, nonce, session, timestamp}` both sides serialize and
digest (`dataToVerify` in the validator, `dataToSign` in the generator).
`JSON.stringify` omits a key holding `undefined`, so an absent timestamp
field drops the `timestamp` key. -/
def signedPayload (params : Js) (nonce : Int) (session : String) (tsField : Option Js) : Js :=
  .obj ([("params", params), ("nonce", .num nonce), ("session", .str session)] ++
    (match tsField with
     | some v => [("timestamp", v)]
     | none => []))

/-- The `_deProof` member of the request parameters as the validator sees it:
`params._deProof` read, with every falsy value failing the `!deProof` test. -/
def deProofJs (reqParams : List (String × Js)) : Option Js :=
  match lookupA reqParams "_deProof" with
  | some v => if jsTruthy v then some v else none
  | none => none

/-- Model of `validateDeProof(request, nonceStore)`: the full admission
pipeline over the request parameter object, returning the outcome and the
nonce store after the call.  Stage map, with the JS behaviour each branch
embeds:

1. `!deProof` fails with -32602 (`missingProof`).  The log line that follows
   calls `substring` on `signerAddress` and `session`, so a missing or
   non-string value of either throws and the outer catch yields -32000
   (`genericError`).
2. Timestamp window (60 s): see `timestampRejected`; an unparseable
   timestamp yields `NaN` and passes.
3. Nonce: `deProof.nonce !== expectedNonce`, with any non-number nonce
   unequal to every expected number, fails -32003 (`nonceInvalid`).
4. Digest: strip `_deProof`, serialize `signedPayload`, keccak256, compare
   after stripping `0x` from both sides; inequality fails -32005
   (`digestMismatch`).  A missing or non-string digest throws at
   `startsWith` outside any inner try, hence `genericError`.
5. Signature: recover via `verifyMessage` on the hex-decoded digest bytes
   and the 0x-prefixed signature; a recovery error (including the throw on a
   missing/non-string signature inside this try) fails -32007
   (`signatureInvalid`); a recovered address differing case-insensitively
   from the declared signer fails -32006 (`signatureMismatch`).
6. Commit: `incrementAndSetNonce` with the validated nonce; then accepted. -/
def validateDeProof (env : JsEnv) (reqParams : List (String × Js)) (store : NonceStore) :
    VResult × NonceStore :=
  match deProofJs reqParams with
  | none => (.missingProof, store)
  | some dp =>
    match proofStr dp "signerAddress", proofStr dp "session" with
    | some signer, some session =>
      if timestampRejected env (jsGetField dp "timestamp") then
        (.timestampOutOfRange, store)
      else
        match proofNum dp "nonce" with
        | some n =>
          if n = getExpectedNonce store signer session then
            match proofStr dp "digest" with
            | some digest =>
              if strip0x (env.keccak256 (canonicalStringify
                    (signedPayload (.obj (removeKey reqParams "_deProof")) n session
                      (jsGetField dp "timestamp")))) = strip0x digest then
                match proofStr dp "signature" with
                | some sig =>
                  match env.verifyMessage (hexDecodeJs (strip0x digest))
                      (if startsWith0x sig then sig else "0x" ++ sig) with
                  | some recovered =>
                    if jsToLower recovered = jsToLower signer then
                      (.accepted, incrementAndSetNonce store signer session n)
                    else (.signatureMismatch, store)
                  | none => (.signatureInvalid, store)
                | none => (.signatureInvalid, store)
              else (.digestMismatch, store)
            | none => (.genericError, store)
          else (.nonceInvalid, store)
        | none => (.nonceInvalid, store)
    | _, _ => (.genericError, store)

/-- Fold a sequence of validation attempts through the nonce store. -/
def runValidations (env : JsEnv) : List (List (String × Js)) → NonceStore → NonceStore
  | [], store => store
  | req :: rest, store => runValidations env rest (validateDeProof env req store).2

/-- The request carries a `_deProof` whose signer, session and nonce fields
are the given triple (with the types the later stages require). -/
def presentsTriple (reqParams : List (String × Js)) (a s : String) (n : Int) : Prop :=
  ∃ dp, deProofJs reqParams = some dp ∧ proofStr dp "signerAddress" = some a ∧
    proofStr dp "session" = some s ∧ proofNum dp "nonce" = some n

/-- The wire DeProof record built by the generator. -/
structure DeProof where
  signerAddress : String
  nonce : Int
  session : String
  timestamp : String
  digest : String
  signature : String

/-- The ethers `Wallet` as the generator uses it: an address and the
personal-message signing operation over byte arrays. -/
structure Wallet where
  address : String
  signMessage : List Nat → String

/-- Client-side runtime primitives: `randomUUID()`, the ISO timestamp of
`new Date().toISOString()`, and `keccak256` from ethers. -/
structure ClientEnv where
  freshUuid : String
  nowIso : String
  keccak256 : String → String

/-- Model of `generateDeProof(params, wallet, currentSession)` of
`secure-proof.js`: reuse or mint a session, stamp the time, fetch-and-advance
the client nonce, serialize and digest `{params, nonce, session, timestamp}`,
sign the digest bytes, and return the record (digest and signature are sent
without the `0x` prefix).  The client nonce store is threaded explicitly. -/
def generateDeProof (env : ClientEnv) (params : Js) (wallet : Wallet)
    (currentSession : Option String) (st : ClientNonceStore) : DeProof × ClientNonceStore :=
  let session := currentSession.getD env.freshUuid
  let timestamp := env.nowIso
  let nonce := (getAndIncNonce st wallet.address session).1
  let serializedData := canonicalStringify (signedPayload params nonce session (some (.str timestamp)))
  let digest := env.keccak256 serializedData
  let digestWithoutPrefix := strip0x digest
  let signature := wallet.signMessage (hexDecodeJs digestWithoutPrefix)
  ({ signerAddress := wallet.address
   , nonce := nonce
   , session := session
   , timestamp := timestamp
   , digest := digestWithoutPrefix
   , signature := strip0x signature },
   (getAndIncNonce st wallet.address session).2)

/-- Client nonce store after `k` successive generations for a fixed wallet
and session (the parameters and runtime values of each call may vary). -/
def genStates (envs : Nat → ClientEnv) (ps : Nat → Js) (w : Wallet) (s : String) :
    Nat → ClientNonceStore
  | 0 => []
  | k + 1 => (generateDeProof (envs k) (ps k) w (some s) (genStates envs ps w s k)).2

/-- The proof produced by the (k+1)-st generation for a fixed wallet and
session. -/
def genProof (envs : Nat → ClientEnv) (ps : Nat → Js) (w : Wallet) (s : String) (k : Nat) :
    DeProof :=
  (generateDeProof (envs k) (ps k) w (some s) (genStates envs ps w s k)).1

/-- Modelled from the spec: two hex strings denote the same bytes when they
agree after stripping an optional `0x` prefix and lowercasing (the
case/prefix-insensitive comparison the spec prescribes for the digest
stage).  Used to compare the spec with the comparison the code performs. -/
def hexSameBytesCaseInsensitive (d1 d2 : String) : Prop :=
  jsToLower (strip0x d1) = jsToLower (strip0x d2)

/-- Structural equality of parameter trees: equal scalars, arrays equal
pointwise in order, and objects whose key sets (distinct on both sides)
coincide up to insertion order with structurally equal values.  The object
constructor relates `fs` to a reordering `gs'` of `gs` that matches `fs`
key-for-key. -/
inductive StructEq : Js → Js → Prop where
  | null : StructEq .null .null
  | bool (b : Bool) : StructEq (.bool b) (.bool b)
  | num (n : Int) : StructEq (.num n) (.num n)
  | str (s : String) : StructEq (.str s) (.str s)
  | arr {xs ys : List Js} : List.Forall₂ StructEq xs ys → StructEq (.arr xs) (.arr ys)
  | obj {fs gs gs' : List (String × Js)} :
      (fs.map Prod.fst).Nodup → (gs.map Prod.fst).Nodup → gs.Perm gs' →
      fs.map Prod.fst = gs'.map Prod.fst →
      List.Forall₂ StructEq (fs.map Prod.snd) (gs'.map Prod.snd) →
      StructEq (.obj fs) (.obj gs)

/-! ### Association-list and nonce-store lemmas -/

theorem lookupA_insertA_self {α : Type} (l : List (String × α)) (k : String) (v : α) :
    lookupA (insertA l k v) k = some v := by
  induction l with
  | nil => simp [insertA, lookupA]
  | cons p t ih =>
    obtain ⟨k', v'⟩ := p
    by_cases h : k' = k
    · subst h; simp [insertA, lookupA]
    · simp [insertA, lookupA, h, ih]

theorem lookupA_insertA_ne {α : Type} (l : List (String × α)) (k k' : String) (v : α)
    (h : k' ≠ k) : lookupA (insertA l k v) k' = lookupA l k' := by
  have h' : k ≠ k' := Ne.symm h
  induction l with
  | nil => simp [insertA, lookupA, h']
  | cons p t ih =>
    obtain ⟨k₀, v₀⟩ := p
    by_cases h₀ : k₀ = k
    · subst h₀
      simp only [insertA, if_pos rfl]
      simp [lookupA, h']
    · simp [insertA, lookupA, h₀, ih]

theorem getExpectedNonce_inc_self (st : NonceStore) (a s : String) (n : Int) :
    getExpectedNonce (incrementAndSetNonce st a s n) a s = n + 1 := by
  simp [getExpectedNonce, incrementAndSetNonce, lookupA_insertA_self]

theorem getExpectedNonce_inc_ne (st : NonceStore) (a' s' a s : String) (n : Int)
    (h : ¬(a = a' ∧ s = s')) :
    getExpectedNonce (incrementAndSetNonce st a' s' n) a s = getExpectedNonce st a s := by
  by_cases ha : a = a'
  · subst ha
    have hs : s ≠ s' := fun hss => h ⟨rfl, hss⟩
    simp only [getExpectedNonce, incrementAndSetNonce, lookupA_insertA_self]
    rw [lookupA_insertA_ne _ _ _ _ hs]
    cases hl : lookupA st a with
    | none => simp [lookupA]
    | some m => simp
  · simp only [getExpectedNonce, incrementAndSetNonce]
    rw [lookupA_insertA_ne _ _ _ _ ha]

theorem getExpectedNonce_inc_le (st : NonceStore) (a' s' a s : String) :
    getExpectedNonce st a s ≤
      getExpectedNonce (incrementAndSetNonce st a' s' (getExpectedNonce st a' s')) a s := by
  by_cases h : a = a' ∧ s = s'
  · obtain ⟨rfl, rfl⟩ := h
    rw [getExpectedNonce_inc_self]
    omega
  · rw [getExpectedNonce_inc_ne st a' s' a s _ h]

/-! ### Structural case analysis of the validator -/

/-- Every run of `validateDeProof` either rejects and leaves the store
untouched, or accepts a request presenting a triple whose nonce equals the
expected one and advances exactly that entry. -/
theorem validateDeProof_cases (env : JsEnv) (req : List (String × Js)) (store : NonceStore) :
    ((validateDeProof env req store).1 ≠ .accepted ∧ (validateDeProof env req store).2 = store)
  ∨ (∃ dp a s n, deProofJs req = some dp ∧ proofStr dp "signerAddress" = some a ∧
       proofStr dp "session" = some s ∧ proofNum dp "nonce" = some n ∧
       n = getExpectedNonce store a s ∧
       (validateDeProof env req store).1 = .accepted ∧
       (validateDeProof env req store).2 = incrementAndSetNonce store a s n) := by
  unfold validateDeProof
  repeat' split
  all_goals try exact Or.inl ⟨by simp, rfl⟩
  exact Or.inr ⟨_, _, _, _, by assumption, by assumption, by assumption, by assumption,
    by assumption, rfl, rfl⟩

/-- A rejected validation attempt leaves the nonce store exactly as it was. -/
theorem validateDeProof_store_of_reject (env : JsEnv) (req : List (String × Js))
    (store : NonceStore) (h : (validateDeProof env req store).1 ≠ .accepted) :
    (validateDeProof env req store).2 = store := by
  rcases validateDeProof_cases env req store with ⟨_, h2⟩ | ⟨_, _, _, _, _, _, _, _, _, hacc, _⟩
  · exact h2
  · exact absurd hacc h

/-- One validation attempt never decreases any expected nonce. -/
theorem getExpectedNonce_le_step (env : JsEnv) (req : List (String × Js)) (store : NonceStore)
    (a s : String) :
    getExpectedNonce store a s ≤ getExpectedNonce (validateDeProof env req store).2 a s := by
  rcases validateDeProof_cases env req store with ⟨_, h2⟩ |
    ⟨dp, a', s', n, _, _, _, _, hexp, _, h2⟩
  · rw [h2]
  · rw [h2, hexp]
    exact getExpectedNonce_inc_le store a' s' a s

/-- A whole sequence of validation attempts never decreases any expected
nonce. -/
theorem getExpectedNonce_le_run (env : JsEnv) (reqs : List (List (String × Js)))
    (store : NonceStore) (a s : String) :
    getExpectedNonce store a s ≤ getExpectedNonce (runValidations env reqs store) a s := by
  induction reqs generalizing store with
  | nil => simp [runValidations]
  | cons r rest ih =>
    exact le_trans (getExpectedNonce_le_step env r store a s) (ih _)

/-- Reaching the nonce stage with a nonce different from the expected one is
rejected with `NonceInvalid`. -/
theorem validateDeProof_nonce_mismatch (env : JsEnv) (req : List (String × Js))
    (store : NonceStore) (dp : Js) (a s : String) (n : Int)
    (hdp : deProofJs req = some dp) (ha : proofStr dp "signerAddress" = some a)
    (hs : proofStr dp "session" = some s)
    (hts : timestampRejected env (jsGetField dp "timestamp") = false)
    (hn : proofNum dp "nonce" = some n)
    (hne : n ≠ getExpectedNonce store a s) :
    (validateDeProof env req store).1 = .nonceInvalid := by
  unfold validateDeProof
  rw [hdp]
  simp only [ha, hs, hts, hn, Bool.false_eq_true, if_false]
  simp [hne]

/-- C1: unseen (signer, session) pairs have expected nonce 0; accepting a
proof with nonce `n` sets the expected nonce for its pair to `n + 1`; a
request presenting a nonce below the expected one is never accepted (so no
triple is ever accepted twice, since expected nonces never decrease across
any sequence of attempts); and an attempt that reaches the nonce stage with
a nonce different from the expected one is rejected with `NonceInvalid`. -/
theorem nonce_replay_protection (env : JsEnv) (req : List (String × Js)) (store : NonceStore)
    (a s : String) (n : Int) :
    getExpectedNonce emptyNonceStore a s = 0
  ∧ (presentsTriple req a s n → (validateDeProof env req store).1 = .accepted →
      getExpectedNonce (validateDeProof env req store).2 a s = n + 1)
  ∧ (presentsTriple req a s n → n < getExpectedNonce store a s →
      (validateDeProof env req store).1 ≠ .accepted)
  ∧ (∀ reqs, getExpectedNonce store a s ≤ getExpectedNonce (runValidations env reqs store) a s)
  ∧ (∀ dp, deProofJs req = some dp → proofStr dp "signerAddress" = some a →
      proofStr dp "session" = some s → proofNum dp "nonce" = some n →
      timestampRejected env (jsGetField dp "timestamp") = false →
      n ≠ getExpectedNonce store a s →
      (validateDeProof env req store).1 = .nonceInvalid) := by
  refine ⟨rfl, ?_, ?_, fun reqs => getExpectedNonce_le_run env reqs store a s, ?_⟩
  · rintro ⟨dp, hdp, ha, hs, hn⟩ hacc
    rcases validateDeProof_cases env req store with ⟨hne, _⟩ |
      ⟨dp', a', s', n', hdp', ha', hs', hn', hexp, _, h2⟩
    · exact absurd hacc hne
    · rw [hdp] at hdp'
      obtain rfl : dp = dp' := Option.some.inj hdp'
      rw [ha] at ha'
      obtain rfl : a = a' := Option.some.inj ha'
      rw [hs] at hs'
      obtain rfl : s = s' := Option.some.inj hs'
      rw [hn] at hn'
      obtain rfl : n = n' := Option.some.inj hn'
      rw [h2, getExpectedNonce_inc_self]
  · rintro ⟨dp, hdp, ha, hs, hn⟩ hlt hacc
    rcases validateDeProof_cases env req store with ⟨hne, _⟩ |
      ⟨dp', a', s', n', hdp', ha', hs', hn', hexp, _, _⟩
    · exact absurd hacc hne
    · rw [hdp] at hdp'
      obtain rfl : dp = dp' := Option.some.inj hdp'
      rw [ha] at ha'
      obtain rfl : a = a' := Option.some.inj ha'
      rw [hs] at hs'
      obtain rfl : s = s' := Option.some.inj hs'
      rw [hn] at hn'
      obtain rfl : n = n' := Option.some.inj hn'
      rw [← hexp] at hlt
      exact lt_irrefl n hlt
  · intro dp hdp ha hs hn hts hne
    exact validateDeProof_nonce_mismatch env req store dp a s n hdp ha hs hts hn hne

/-- Concrete runtime primitives used by the witnesses: a fixed clock, a
one-entry date table, a constant hash and a constant recovered address. -/
def demoEnv : JsEnv :=
  { now := 0
  , parseDate := fun s => if s = "1970-01-01T00:00:00.000Z" then some 0 else none
  , keccak256 := fun _ => "0xabc123"
  , verifyMessage := fun _ _ => some "0xaBcD" }

/-- A wire proof object that `demoEnv` accepts on a fresh store. -/
def demoProof : Js :=
  .obj [("signerAddress", .str "0xAbCd"), ("nonce", .num 0), ("session", .str "sess-demo"),
        ("timestamp", .str "1970-01-01T00:00:00.000Z"), ("digest", .str "abc123"),
        ("signature", .str "f00d")]

/-- A request carrying `demoProof` next to one ordinary tool parameter. -/
def demoReq : List (String × Js) := [("state", .str "CA"), ("_deProof", demoProof)]

/-- Witness for C1: the demo request is accepted on a fresh store with nonce
0, the expected nonce for its pair becomes 1, and replaying the very same
request against the updated store is rejected with `NonceInvalid`. -/
theorem nonce_replay_protection_witness :
    presentsTriple demoReq "0xAbCd" "sess-demo" 0
  ∧ (validateDeProof demoEnv demoReq emptyNonceStore).1 = .accepted
  ∧ getExpectedNonce (validateDeProof demoEnv demoReq emptyNonceStore).2 "0xAbCd" "sess-demo" = 1
  ∧ (validateDeProof demoEnv demoReq
      (validateDeProof demoEnv demoReq emptyNonceStore).2).1 = .nonceInvalid := by
  have hacc : (validateDeProof demoEnv demoReq emptyNonceStore).1 = .accepted := by decide
  have htriple : presentsTriple demoReq "0xAbCd" "sess-demo" 0 :=
    ⟨demoProof, rfl, rfl, rfl, rfl⟩
  refine ⟨htriple, hacc, ?_, ?_⟩
  · exact (nonce_replay_protection demoEnv demoReq emptyNonceStore "0xAbCd" "sess-demo"
      0).2.1 htriple hacc
  · exact (nonce_replay_protection demoEnv demoReq
      (validateDeProof demoEnv demoReq emptyNonceStore).2 "0xAbCd" "sess-demo" 0).2.2.2.2
      demoProof rfl rfl rfl rfl (by decide) (by decide)

/-- C7: any validation attempt that does not end in acceptance — a rejection
at the presence, timestamp, nonce, digest or signature stage — leaves the
nonce store completely unchanged; the store is advanced (by
`incrementAndSetNonce` with the validated nonce) only on the accepting path,
after every earlier stage has succeeded. -/
theorem store_unchanged_on_rejection (env : JsEnv) (req : List (String × Js))
    (store : NonceStore) (h : (validateDeProof env req store).1 ≠ .accepted) :
    (validateDeProof env req store).2 = store :=
  validateDeProof_store_of_reject env req store h

/-- Witness for C7: a request with no `_deProof` is rejected with
`MissingProof` and the store comes back exactly as it went in. -/
theorem store_unchanged_on_rejection_witness :
    (validateDeProof demoEnv [("state", Js.str "CA")] emptyNonceStore).1 = .missingProof
  ∧ (validateDeProof demoEnv [("state", Js.str "CA")] emptyNonceStore).2 = emptyNonceStore :=
  ⟨by decide, store_unchanged_on_rejection demoEnv [("state", Js.str "CA")] emptyNonceStore
    (by decide)⟩

/-- A proof object carrying none of the six DeProof fields. -/
def emptyFieldsProof : Js := .obj [("foo", .num 1)]

/-- A request whose `_deProof` is present (a truthy object) but lacks every
DeProof field, in particular `signerAddress`. -/
def reqMissingFields : List (String × Js) := [("state", .str "CA"), ("_deProof", emptyFieldsProof)]

/-- Counterexample to C2 as stated: a request whose `_deProof` object is
present but lacks the six fields is NOT rejected with `MissingProof`
(-32602); the log line after the presence test calls `substring` on the
missing `signerAddress`, the thrown `TypeError` reaches the outer catch, and
the validator returns the generic -32000 rejection instead. -/
theorem presence_missing_fields_counterexample :
    (deProofJs reqMissingFields).isSome = true
  ∧ proofStr emptyFieldsProof "signerAddress" = none
  ∧ (validateDeProof demoEnv reqMissingFields emptyNonceStore).1 = .genericError :=
  ⟨by decide, by decide, by decide⟩

/-- C2 (amended): the presence stage rejects with `MissingProof` exactly
when the `_deProof` member is absent or falsy; it checks nothing else.  A
present proof object whose `signerAddress` is missing or not a string is
instead rejected with the generic -32000 error by the outer exception
handler (and other missing fields surface at later stages). -/
theorem presence_stage_missing_proof_iff (env : JsEnv) (req : List (String × Js))
    (store : NonceStore) :
    ((validateDeProof env req store).1 = .missingProof ↔ deProofJs req = none)
  ∧ (∀ dp, deProofJs req = some dp → proofStr dp "signerAddress" = none →
      (validateDeProof env req store).1 = .genericError) := by
  constructor
  · unfold validateDeProof
    repeat' split
    all_goals simp_all
  · intro dp hdp hsa
    unfold validateDeProof
    rw [hdp]
    repeat' split
    all_goals simp_all

/-- Witness for C2 (amended): both directions exercised concretely — the
request without `_deProof` maps to `MissingProof`, and the present-but-empty
proof object maps to the generic error. -/
theorem presence_stage_missing_proof_iff_witness :
    (validateDeProof demoEnv [("state", Js.str "CA")] emptyNonceStore).1 = .missingProof
  ∧ (validateDeProof demoEnv reqMissingFields emptyNonceStore).1 = .genericError :=
  ⟨(presence_stage_missing_proof_iff demoEnv [("state", Js.str "CA")] emptyNonceStore).1.mpr
      rfl,
   (presence_stage_missing_proof_iff demoEnv reqMissingFields emptyNonceStore).2
      emptyFieldsProof rfl rfl⟩

/-- A proof whose timestamp string no `Date` parse accepts, carrying a nonce
far above the expected one. -/
def unparseableTsProof : Js :=
  .obj [("signerAddress", .str "0xAbCd"), ("nonce", .num 7), ("session", .str "sess-demo"),
        ("timestamp", .str "not-a-timestamp"), ("digest", .str "abc123"),
        ("signature", .str "f00d")]

/-- The request carrying `unparseableTsProof`. -/
def reqUnparseableTs : List (String × Js) := [("state", .str "CA"), ("_deProof", unparseableTsProof)]

/-- C3 (code bug): with an unparseable timestamp (`demoEnv.parseDate`
returns `none`, the model of `new Date(s).getTime()` being `NaN`), the
validator does NOT fail at the timestamp stage: `NaN > 60` is `false`, the
stage passes, the nonce store is consulted, and this request is rejected at
the nonce stage (-32003) — the code can never return its own
timestamp-format error (-32002), whose catch branch is dead because JS
`Date` parsing never throws. -/
theorem unparseable_timestamp_passes_stage :
    demoEnv.parseDate "not-a-timestamp" = none
  ∧ timestampRejected demoEnv (jsGetField unparseableTsProof "timestamp") = false
  ∧ (validateDeProof demoEnv reqUnparseableTs emptyNonceStore).1 = .nonceInvalid :=
  ⟨by decide, by decide, by decide⟩

/-- C6: for a request that reaches the timestamp stage with a parseable
timestamp, the attempt fails with the timestamp-out-of-range rejection
exactly when the absolute difference between the validator clock and the
timestamp exceeds 60 seconds; a difference of at most 60 seconds — including
exactly 60 seconds in the past or the future — passes the stage. -/
theorem timestamp_tolerance_boundary (env : JsEnv) (req : List (String × Js))
    (store : NonceStore) (dp : Js) (a s tsStr : String) (t : Int)
    (hdp : deProofJs req = some dp)
    (ha : proofStr dp "signerAddress" = some a)
    (hs : proofStr dp "session" = some s)
    (hts : jsGetField dp "timestamp" = some (.str tsStr))
    (hpt : env.parseDate tsStr = some t) :
    (validateDeProof env req store).1 = .timestampOutOfRange ↔
      ((env.now - t).natAbs : ℚ) / 1000 > 60 := by
  have hdiv : (mkRat ((env.now - t).natAbs) 1000 : ℚ) = ((env.now - t).natAbs : ℚ) / 1000 :=
    mkRat_thousand_eq_div _
  have hrej : timestampRejected env (jsGetField dp "timestamp")
      = decide (mkRat ((env.now - t).natAbs) 1000 > 60) := by
    rw [hts]
    simp [timestampRejected, hpt]
  unfold validateDeProof
  rw [hdp]
  simp only [ha, hs]
  cases hb : timestampRejected env (jsGetField dp "timestamp") with
  | true =>
    have hgt : mkRat ((env.now - t).natAbs) 1000 > 60 := by
      rw [hrej] at hb
      exact of_decide_eq_true hb
    simp only [hb, if_true]
    exact ⟨fun _ => hdiv ▸ hgt, fun _ => by trivial⟩
  | false =>
    have hngt : ¬ (mkRat ((env.now - t).natAbs) 1000 > 60) := by
      rw [hrej] at hb
      exact of_decide_eq_false hb
    simp only [hb, Bool.false_eq_true, if_false]
    constructor
    · intro hres
      exfalso
      revert hres
      repeat' split
      all_goals simp_all
    · intro hcon
      exact absurd (hdiv ▸ hcon) hngt

/-- The validator clock sitting exactly 60 seconds after the epoch timestamp
of `demoProof`. -/
def boundaryEnv : JsEnv :=
  { now := 60000
  , parseDate := fun s => if s = "1970-01-01T00:00:00.000Z" then some 0 else none
  , keccak256 := fun _ => "0xabc123"
  , verifyMessage := fun _ _ => some "0xaBcD" }

/-- The validator clock sitting 61 seconds after the epoch timestamp. -/
def pastToleranceEnv : JsEnv :=
  { now := 61000
  , parseDate := fun s => if s = "1970-01-01T00:00:00.000Z" then some 0 else none
  , keccak256 := fun _ => "0xabc123"
  , verifyMessage := fun _ _ => some "0xaBcD" }

/-- Witness for C6: at a difference of exactly 60 s the demo request is not
rejected at the timestamp stage (it is in fact accepted), and at 61 s it
fails with the timestamp-out-of-range rejection. -/
theorem timestamp_tolerance_boundary_witness :
    ((validateDeProof boundaryEnv demoReq emptyNonceStore).1 = .timestampOutOfRange ↔
      ((boundaryEnv.now - 0).natAbs : ℚ) / 1000 > 60)
  ∧ (validateDeProof boundaryEnv demoReq emptyNonceStore).1 = .accepted
  ∧ (validateDeProof pastToleranceEnv demoReq emptyNonceStore).1 = .timestampOutOfRange :=
  ⟨timestamp_tolerance_boundary boundaryEnv demoReq emptyNonceStore demoProof
      "0xAbCd" "sess-demo" "1970-01-01T00:00:00.000Z" 0 rfl rfl rfl rfl rfl,
   by decide, by decide⟩

/-- C5 (amended): once the digest stage is reached, the attempt fails with
`DigestMismatch` exactly when the prefix-stripped recomputed digest differs
from the prefix-stripped declared digest as an exact, case-sensitive string;
equality of the denoted bytes up to hex letter case is not sufficient. -/
theorem digest_stage_exact_after_prefix_strip (env : JsEnv) (req : List (String × Js))
    (store : NonceStore) (dp : Js) (a s d : String) (n : Int)
    (hdp : deProofJs req = some dp)
    (ha : proofStr dp "signerAddress" = some a)
    (hs : proofStr dp "session" = some s)
    (hts : timestampRejected env (jsGetField dp "timestamp") = false)
    (hn : proofNum dp "nonce" = some n)
    (hexp : n = getExpectedNonce store a s)
    (hd : proofStr dp "digest" = some d) :
    (validateDeProof env req store).1 = .digestMismatch ↔
      ¬ (strip0x (env.keccak256 (canonicalStringify
           (signedPayload (.obj (removeKey req "_deProof")) n s (jsGetField dp "timestamp"))))
         = strip0x d) := by
  unfold validateDeProof
  rw [hdp]
  simp only [ha, hs, hts, Bool.false_eq_true, if_false, hn]
  rw [if_pos hexp]
  simp only [hd]
  by_cases hmatch : strip0x (env.keccak256 (canonicalStringify
      (signedPayload (.obj (removeKey req "_deProof")) n s (jsGetField dp "timestamp"))))
      = strip0x d
  · rw [if_pos hmatch]
    constructor
    · intro hres
      exfalso
      revert hres
      repeat' split
      all_goals simp_all
    · intro hcon
      exact absurd hmatch hcon
  · rw [if_neg hmatch]
    simpa using hmatch

/-- A wire proof identical to `demoProof` except that the declared digest is
the uppercase hex rendering of the same 32 bytes. -/
def upperDigestProof : Js :=
  .obj [("signerAddress", .str "0xAbCd"), ("nonce", .num 0), ("session", .str "sess-demo"),
        ("timestamp", .str "1970-01-01T00:00:00.000Z"), ("digest", .str "ABC123"),
        ("signature", .str "f00d")]

/-- The request carrying `upperDigestProof`. -/
def reqUpperDigest : List (String × Js) := [("state", .str "CA"), ("_deProof", upperDigestProof)]

/-- Counterexample to C5 as stated: the declared digest denotes exactly the
same bytes as the recomputed digest (they agree after stripping the prefix
and lowercasing), yet the stage fails with `DigestMismatch`, because the
code compares the prefix-stripped hex strings case-sensitively. -/
theorem digest_case_sensitivity_counterexample :
    hexSameBytesCaseInsensitive "ABC123"
      (demoEnv.keccak256 (canonicalStringify
        (signedPayload (.obj (removeKey reqUpperDigest "_deProof")) 0 "sess-demo"
          (jsGetField upperDigestProof "timestamp"))))
  ∧ (validateDeProof demoEnv reqUpperDigest emptyNonceStore).1 = .digestMismatch := by
  constructor
  · unfold hexSameBytesCaseInsensitive
    decide
  · decide

/-- Witness for C5 (amended): the demo request declares the lowercase digest
without a prefix, the exact comparison succeeds, and the request is
accepted; the theorem instance states the stage fails exactly on string
inequality. -/
theorem digest_stage_exact_after_prefix_strip_witness :
    ((validateDeProof demoEnv demoReq emptyNonceStore).1 = .digestMismatch ↔
      ¬ (strip0x (demoEnv.keccak256 (canonicalStringify
           (signedPayload (.obj (removeKey demoReq "_deProof")) 0 "sess-demo"
             (jsGetField demoProof "timestamp"))))
         = strip0x "abc123"))
  ∧ (validateDeProof demoEnv demoReq emptyNonceStore).1 = .accepted :=
  ⟨digest_stage_exact_after_prefix_strip demoEnv demoReq emptyNonceStore demoProof
      "0xAbCd" "sess-demo" "abc123" 0 rfl rfl rfl (by decide) rfl rfl rfl,
   by decide⟩

/-- C8: once the signature stage is reached, a recovery failure (the model of
a malformed signature: wrong length, bad recovery id, unrecoverable point)
is rejected with `SignatureInvalid` (-32007), never silently accepted; a
recovered address equal to the declared signer up to letter case is
accepted; and a recovered address differing even case-insensitively is
rejected with the signature-mismatch rejection (-32006). -/
theorem signature_stage_recovery_and_case (env : JsEnv) (req : List (String × Js))
    (store : NonceStore) (dp : Js) (a s d sg : String) (n : Int)
    (hdp : deProofJs req = some dp)
    (ha : proofStr dp "signerAddress" = some a)
    (hs : proofStr dp "session" = some s)
    (hts : timestampRejected env (jsGetField dp "timestamp") = false)
    (hn : proofNum dp "nonce" = some n)
    (hexp : n = getExpectedNonce store a s)
    (hd : proofStr dp "digest" = some d)
    (hmatch : strip0x (env.keccak256 (canonicalStringify
        (signedPayload (.obj (removeKey req "_deProof")) n s (jsGetField dp "timestamp"))))
        = strip0x d)
    (hsg : proofStr dp "signature" = some sg) :
    (env.verifyMessage (hexDecodeJs (strip0x d))
        (if startsWith0x sg then sg else "0x" ++ sg) = none →
      (validateDeProof env req store).1 = .signatureInvalid)
  ∧ (∀ radr, env.verifyMessage (hexDecodeJs (strip0x d))
        (if startsWith0x sg then sg else "0x" ++ sg) = some radr →
      (jsToLower radr = jsToLower a → (validateDeProof env req store).1 = .accepted)
      ∧ (jsToLower radr ≠ jsToLower a →
          (validateDeProof env req store).1 = .signatureMismatch)) := by
  unfold validateDeProof
  rw [hdp]
  simp only [ha, hs, hts, Bool.false_eq_true, if_false, hn]
  rw [if_pos hexp]
  simp only [hd]
  rw [if_pos hmatch]
  simp only [hsg]
  constructor
  · intro hnone
    rw [hnone]
  · intro radr hrec
    rw [hrec]
    constructor
    · intro hcase
      simp [hcase]
    · intro hcase
      simp [hcase]

/-- Recovery yields an address that differs from the declared signer even
after lowercasing. -/
def wrongSignerEnv : JsEnv :=
  { now := 0
  , parseDate := fun s => if s = "1970-01-01T00:00:00.000Z" then some 0 else none
  , keccak256 := fun _ => "0xabc123"
  , verifyMessage := fun _ _ => some "0xffff" }

/-- Recovery throws (malformed signature), modelled by `none`. -/
def malformedSigEnv : JsEnv :=
  { now := 0
  , parseDate := fun s => if s = "1970-01-01T00:00:00.000Z" then some 0 else none
  , keccak256 := fun _ => "0xabc123"
  , verifyMessage := fun _ _ => none }

/-- Witness for C8: with the same request, a case-insensitively matching
recovered address is accepted, a differing one fails with the mismatch
rejection, and a failed recovery fails with `SignatureInvalid`. -/
theorem signature_stage_recovery_and_case_witness :
    (validateDeProof demoEnv demoReq emptyNonceStore).1 = .accepted
  ∧ (validateDeProof wrongSignerEnv demoReq emptyNonceStore).1 = .signatureMismatch
  ∧ (validateDeProof malformedSigEnv demoReq emptyNonceStore).1 = .signatureInvalid :=
  ⟨((signature_stage_recovery_and_case demoEnv demoReq emptyNonceStore demoProof
      "0xAbCd" "sess-demo" "abc123" "f00d" 0 rfl rfl rfl (by decide) rfl rfl rfl
      (by decide) rfl).2 "0xaBcD" rfl).1 (by decide),
   ((signature_stage_recovery_and_case wrongSignerEnv demoReq emptyNonceStore demoProof
      "0xAbCd" "sess-demo" "abc123" "f00d" 0 rfl rfl rfl (by decide) rfl rfl rfl
      (by decide) rfl).2 "0xffff" rfl).2 (by decide),
   (signature_stage_recovery_and_case malformedSigEnv demoReq emptyNonceStore demoProof
      "0xAbCd" "sess-demo" "abc123" "f00d" 0 rfl rfl rfl (by decide) rfl rfl rfl
      (by decide) rfl).1 rfl⟩

/-- Advancing the client counter for a pair increments exactly that pair. -/
theorem clientCounter_inc_self (st : ClientNonceStore) (a s : String) :
    clientCounter (getAndIncNonce st a s).2 a s = clientCounter st a s + 1 := by
  simp [getAndIncNonce, clientCounter, lookupA_insertA_self]

/-- The nonce placed in a generated proof is the current client counter of
the wallet address and session used. -/
theorem genProof_nonce (envs : Nat → ClientEnv) (ps : Nat → Js) (w : Wallet) (s : String)
    (k : Nat) :
    (genProof envs ps w s k).nonce = clientCounter (genStates envs ps w s k) w.address s := by
  simp [genProof, generateDeProof, getAndIncNonce]

/-- After `k` generations for a fixed (wallet, session) pair the client
counter for that pair is exactly `k`. -/
theorem genStates_counter (envs : Nat → ClientEnv) (ps : Nat → Js) (w : Wallet) (s : String) :
    ∀ k : Nat, clientCounter (genStates envs ps w s k) w.address s = (k : Int) := by
  intro k
  induction k with
  | zero => rfl
  | succ k ih =>
    have hst : (generateDeProof (envs k) (ps k) w (some s) (genStates envs ps w s k)).2
        = (getAndIncNonce (genStates envs ps w s k) w.address s).2 := by
      simp [generateDeProof]
    rw [genStates, hst, clientCounter_inc_self, ih]
    push_cast
    ring

/-- C9: for a fixed wallet address and session, the (k+1)-st call to
`generateDeProof` carries nonce `k` — generations start at 0 and produce
strictly increasing nonces — so no two generations for the same
(address, session) pair ever share a nonce, regardless of whether earlier
proofs were used. -/
theorem generator_nonces_strictly_increase (envs : Nat → ClientEnv) (ps : Nat → Js)
    (w : Wallet) (s : String) (j k : Nat) (h : j < k) :
    (genProof envs ps w s k).nonce = (k : Int)
  ∧ (genProof envs ps w s j).nonce ≠ (genProof envs ps w s k).nonce := by
  have hk : (genProof envs ps w s k).nonce = (k : Int) := by
    rw [genProof_nonce, genStates_counter]
  have hj : (genProof envs ps w s j).nonce = (j : Int) := by
    rw [genProof_nonce, genStates_counter]
  refine ⟨hk, ?_⟩
  rw [hj, hk]
  intro hc
  omega

/-- Fixed client runtime for the generator witness. -/
def constClientEnv : ClientEnv :=
  { freshUuid := "uuid-1", nowIso := "1970-01-01T00:00:00.000Z", keccak256 := fun _ => "0xabc123" }

/-- Wallet used by the generator witness. -/
def demoWallet : Wallet := { address := "0xAbCd", signMessage := fun _ => "f00d" }

/-- Witness for C9: the first two generations for the same pair carry nonces
0 and 1, and they differ. -/
theorem generator_nonces_strictly_increase_witness :
    (0 : Nat) < 1
  ∧ (genProof (fun _ => constClientEnv) (fun _ => Js.obj [("state", Js.str "CA")])
      demoWallet "sess-demo" 1).nonce = 1
  ∧ (genProof (fun _ => constClientEnv) (fun _ => Js.obj [("state", Js.str "CA")])
      demoWallet "sess-demo" 0).nonce ≠
    (genProof (fun _ => constClientEnv) (fun _ => Js.obj [("state", Js.str "CA")])
      demoWallet "sess-demo" 1).nonce :=
  ⟨by decide,
   (generator_nonces_strictly_increase (fun _ => constClientEnv)
      (fun _ => Js.obj [("state", Js.str "CA")]) demoWallet "sess-demo" 0 1 (by decide)).1,
   (generator_nonces_strictly_increase (fun _ => constClientEnv)
      (fun _ => Js.obj [("state", Js.str "CA")]) demoWallet "sess-demo" 0 1 (by decide)).2⟩

/-- C10: both nonce stores key signer addresses by the exact string.  Two
address strings that differ only in letter case hold fully independent
counters: advancing the server store under one leaves every counter of the
other unchanged (a fresh pair still reads 0), and the client counter of one
is untouched by a fetch-and-advance on the other. -/
theorem nonce_store_keys_case_sensitive (store : NonceStore) (cst : ClientNonceStore)
    (a1 a2 s s' : String) (n : Int) (h : a1 ≠ a2) :
    getExpectedNonce (incrementAndSetNonce store a1 s n) a2 s' = getExpectedNonce store a2 s'
  ∧ (getAndIncNonce (getAndIncNonce cst a1 s).2 a2 s').1 = (getAndIncNonce cst a2 s').1
  ∧ getExpectedNonce (incrementAndSetNonce emptyNonceStore a1 s n) a2 s' = 0 := by
  have h21 : a2 ≠ a1 := Ne.symm h
  refine ⟨getExpectedNonce_inc_ne store a1 s a2 s' n (fun hc => h21 hc.1), ?_, ?_⟩
  · show clientCounter (getAndIncNonce cst a1 s).2 a2 s' = clientCounter cst a2 s'
    unfold clientCounter getAndIncNonce
    rw [lookupA_insertA_ne cst a1 a2 _ h21]
  · rw [getExpectedNonce_inc_ne emptyNonceStore a1 s a2 s' n (fun hc => h21 hc.1)]
    rfl

/-- Witness for C10: a checksummed and a lowercased rendering of the same
address behave as unrelated keys in both stores. -/
theorem nonce_store_keys_case_sensitive_witness :
    ("0xAbC" : String) ≠ "0xabc"
  ∧ getExpectedNonce (incrementAndSetNonce emptyNonceStore "0xAbC" "s1" 0) "0xabc" "s1" = 0
  ∧ (getAndIncNonce (getAndIncNonce [] "0xAbC" "s1").2 "0xabc" "s1").1
      = (getAndIncNonce [] "0xabc" "s1").1 :=
  ⟨by decide,
   (nonce_store_keys_case_sensitive emptyNonceStore [] "0xAbC" "0xabc" "s1" "s1" 0
      (by decide)).2.2,
   (nonce_store_keys_case_sensitive emptyNonceStore [] "0xAbC" "0xabc" "s1" "s1" 0
      (by decide)).2.1⟩

/-! ### Canonical serialization: key-order invariance -/

/-- `sortFields` is the map that sorts every value. -/
theorem sortFields_eq_map (l : List (String × Js)) :
    sortFields l = l.map (fun p => (p.1, sortObjectKeys p.2)) := by
  induction l with
  | nil => rfl
  | cons p t ih =>
    obtain ⟨k, v⟩ := p
    simp [sortFields, ih]

/-- `sortFields` keeps the keys (in order). -/
theorem map_fst_sortFields (l : List (String × Js)) :
    (sortFields l).map Prod.fst = l.map Prod.fst := by
  rw [sortFields_eq_map, List.map_map]
  rfl

/-- The value of a member is smaller than the object containing it. -/
theorem sizeOf_snd_lt_of_mem_obj {p : String × Js} {fs : List (String × Js)} (hp : p ∈ fs) :
    sizeOf p.2 < sizeOf (Js.obj fs) := by
  have h1 := List.sizeOf_lt_of_mem hp
  have h2 : sizeOf p.2 < sizeOf p := by
    obtain ⟨k, v⟩ := p
    simp only [Prod.mk.sizeOf_spec]
    omega
  simp only [Js.obj.sizeOf_spec]
  omega

/-- An element is smaller than the array containing it. -/
theorem sizeOf_lt_of_mem_arr {x : Js} {xs : List Js} (hx : x ∈ xs) :
    sizeOf x < sizeOf (Js.arr xs) := by
  have := List.sizeOf_lt_of_mem hx
  simp only [Js.arr.sizeOf_spec]
  omega

/-- Two sorted association lists that are permutations of each other and
have pairwise-distinct keys are equal: sorting by key is canonical on
key-distinct entry multisets. -/
theorem sorted_keyLe_eq_of_perm {l1 l2 : List (String × Js)} (hp : l1.Perm l2)
    (hs1 : l1.Sorted keyLe) (hs2 : l2.Sorted keyLe)
    (hn1 : (l1.map Prod.fst).Nodup) : l1 = l2 := by
  have hn2 : (l2.map Prod.fst).Nodup := ((hp.map Prod.fst).nodup_iff).mp hn1
  have hne1 : l1.Pairwise (fun p q : String × Js => p.1 ≠ q.1) := by
    rw [List.Nodup, List.pairwise_map] at hn1
    exact hn1
  have hne2 : l2.Pairwise (fun p q : String × Js => p.1 ≠ q.1) := by
    rw [List.Nodup, List.pairwise_map] at hn2
    exact hn2
  have hlt1 : l1.Sorted keyLt :=
    (List.Pairwise.and hs1 hne1).imp (fun h => lt_of_le_of_ne h.1 h.2)
  have hlt2 : l2.Sorted keyLt :=
    (List.Pairwise.and hs2 hne2).imp (fun h => lt_of_le_of_ne h.1 h.2)
  exact List.eq_of_perm_of_sorted hp hlt1 hlt2

/-- Pointwise congruence for `sortList` bounded by a size budget. -/
theorem sortList_congr_aux (N : Nat)
    (ih : ∀ a b : Js, sizeOf a ≤ N → StructEq a b → sortObjectKeys a = sortObjectKeys b) :
    ∀ {xs ys : List Js}, List.Forall₂ StructEq xs ys → (∀ x ∈ xs, sizeOf x ≤ N) →
      sortList xs = sortList ys := by
  intro xs ys hf
  induction hf with
  | nil => intro _; rfl
  | cons hxy hrest ihrest =>
    intro hmem
    simp only [sortList]
    rw [ih _ _ (hmem _ (List.mem_cons_self _ _)) hxy,
      ihrest (fun x hx => hmem x (List.mem_cons_of_mem _ hx))]

/-- Pointwise congruence for `sortFields` bounded by a size budget: equal
key sequences and structurally equal values in the same order yield equal
sorted-field lists. -/
theorem sortFields_congr_aux (N : Nat)
    (ih : ∀ a b : Js, sizeOf a ≤ N → StructEq a b → sortObjectKeys a = sortObjectKeys b) :
    ∀ (fs gs : List (String × Js)), fs.map Prod.fst = gs.map Prod.fst →
      List.Forall₂ StructEq (fs.map Prod.snd) (gs.map Prod.snd) →
      (∀ p ∈ fs, sizeOf p.2 ≤ N) → sortFields fs = sortFields gs := by
  intro fs
  induction fs with
  | nil =>
    intro gs hk _ _
    cases gs with
    | nil => rfl
    | cons q u => simp at hk
  | cons p t iht =>
    intro gs hk hv hmem
    cases gs with
    | nil => simp at hk
    | cons q u =>
      obtain ⟨p1, p2⟩ := p
      obtain ⟨q1, q2⟩ := q
      simp only [List.map] at hk hv
      injection hk with hk1 hk2
      cases hv with
      | cons hpq hrest =>
        simp only [sortFields]
        rw [hk1, ih _ _ (hmem _ (List.mem_cons_self _ _)) hpq,
          iht u hk2 hrest (fun x hx => hmem x (List.mem_cons_of_mem _ hx))]

/-- Structurally equal trees sort to the same normal form (strong induction
on the size of the left tree). -/
theorem sortObjectKeys_congr_size :
    ∀ (N : Nat) (a b : Js), sizeOf a ≤ N → StructEq a b →
      sortObjectKeys a = sortObjectKeys b := by
  intro N
  induction N with
  | zero =>
    intro a b hle _
    exfalso
    cases a <;> simp_all
  | succ N ih =>
    intro a b hle h
    cases h with
    | null => rfl
    | bool b => rfl
    | num n => rfl
    | str s => rfl
    | arr hf =>
      rename_i xs ys
      simp only [sortObjectKeys]
      have hmem : ∀ x ∈ xs, sizeOf x ≤ N := by
        intro x hx
        have h1 := sizeOf_lt_of_mem_arr hx
        omega
      rw [sortList_congr_aux N ih hf hmem]
    | obj hnf hng hperm hkeys hvals =>
      rename_i fs gs gs'
      simp only [sortObjectKeys]
      have hmem : ∀ p ∈ fs, sizeOf p.2 ≤ N := by
        intro p hp
        have h1 := sizeOf_snd_lt_of_mem_obj hp
        omega
      have heq : sortFields fs = sortFields gs' :=
        sortFields_congr_aux N ih fs gs' hkeys hvals hmem
      have hpermf : (sortFields gs).Perm (sortFields gs') := by
        rw [sortFields_eq_map, sortFields_eq_map]
        exact hperm.map _
      have hp : (List.insertionSort keyLe (sortFields fs)).Perm
          (List.insertionSort keyLe (sortFields gs)) :=
        ((List.perm_insertionSort keyLe (sortFields fs)).trans
          (by rw [heq]; exact hpermf.symm)).trans
          (List.perm_insertionSort keyLe (sortFields gs)).symm
      have hnodup : ((List.insertionSort keyLe (sortFields fs)).map Prod.fst).Nodup := by
        have hpm : ((List.insertionSort keyLe (sortFields fs)).map Prod.fst).Perm
            (fs.map Prod.fst) := by
          have := (List.perm_insertionSort keyLe (sortFields fs)).map Prod.fst
          rwa [map_fst_sortFields] at this
        exact (hpm.nodup_iff).mpr hnf
      rw [sorted_keyLe_eq_of_perm hp (List.sorted_insertionSort keyLe _)
        (List.sorted_insertionSort keyLe _) hnodup]

/-- Structurally equal trees sort identically. -/
theorem sortObjectKeys_congr (a b : Js) (h : StructEq a b) :
    sortObjectKeys a = sortObjectKeys b :=
  sortObjectKeys_congr_size (sizeOf a) a b le_rfl h

/-- C4: two structurally equal parameter trees — same key/value sets at
every object node (keys distinct, any insertion order) and same sequence
order — canonicalize to exactly the same string, and therefore any digest
function (in particular keccak256) maps their canonical strings to the same
digest.  `canonicalStringify` is defined verbatim in both the generator and
the validator source files and is embedded once, so the statement covers
both serializers. -/
theorem canonical_serialization_key_order_invariant (a b : Js) (h : StructEq a b) :
    canonicalStringify a = canonicalStringify b
  ∧ ∀ keccak : String → String, keccak (canonicalStringify a) = keccak (canonicalStringify b) := by
  have hs : canonicalStringify a = canonicalStringify b := by
    unfold canonicalStringify
    rw [sortObjectKeys_congr a b h]
  exact ⟨hs, fun keccak => by rw [hs]⟩

/-- A nested parameter tree. -/
def treeA : Js := .obj [("b", .num 1), ("a", .obj [("y", .str "v"), ("x", .null)])]

/-- The same tree with both object levels in a different insertion order. -/
def treeB : Js := .obj [("a", .obj [("x", .null), ("y", .str "v")]), ("b", .num 1)]

/-- Witness for C4: the two concrete reorderings are structurally equal and
canonicalize to the same string. -/
theorem canonical_serialization_key_order_invariant_witness :
    StructEq treeA treeB ∧ canonicalStringify treeA = canonicalStringify treeB := by
  have hinner : StructEq (Js.obj [("y", Js.str "v"), ("x", Js.null)])
      (Js.obj [("x", Js.null), ("y", Js.str "v")]) := by
    refine @StructEq.obj [("y", Js.str "v"), ("x", Js.null)]
      [("x", Js.null), ("y", Js.str "v")] [("y", Js.str "v"), ("x", Js.null)]
      (by decide) (by decide) (List.Perm.swap _ _ _) rfl ?_
    exact List.Forall₂.cons (StructEq.str "v") (List.Forall₂.cons StructEq.null List.Forall₂.nil)
  have h : StructEq treeA treeB := by
    refine @StructEq.obj [("b", Js.num 1), ("a", Js.obj [("y", Js.str "v"), ("x", Js.null)])]
      [("a", Js.obj [("x", Js.null), ("y", Js.str "v")]), ("b", Js.num 1)]
      [("b", Js.num 1), ("a", Js.obj [("x", Js.null), ("y", Js.str "v")])]
      (by decide) (by decide) (List.Perm.swap _ _ _) rfl ?_
    exact List.Forall₂.cons (StructEq.num 1) (List.Forall₂.cons hinner List.Forall₂.nil)
  exact ⟨h, (canonical_serialization_key_order_invariant treeA treeB h).1⟩
